import Mathlib

/-!
Verification of the voicebr call-broadcast engine.

Shallow embedding of the Go sources (package `nexmo`: the outbound-call
client, contact-directory decoding, and the webhook handlers in
`router.go`).  Pure functions are translated to Lean functions; effectful
collaborators (the HTTP transport, the rate limiters, file storage, JSON
body decoding) are passed in as explicit results (`Except`/`Option`
values), so every definition is executable on concrete inputs.
-/

/-- `nexmo.Contact`.  `Name` is tagged `json:"-"` in the source and is
never serialized to the wire; `Type` and `Number` map to the `type` and
`number` JSON keys. -/
structure Contact where
  Name : String
  type : String
  Number : String
  deriving DecidableEq

/-- `nexmo.NewContact`: builds a contact of kind `"phone"`. -/
def NewContact (num name : String) : Contact :=
  { type := "phone", Number := num, Name := name }

/-- The JSON wire encoding of a `Contact` as key/value fields, read off the
struct tags: `Name` is tagged `json:"-"` so only `type` and `number` are
emitted. -/
def Contact.wireFields (c : Contact) : List (String × String) :=
  [("type", c.type), ("number", c.Number)]

/-- Splits one line into comma-separated fields (accumulator holds the
current field reversed).  Models `encoding/csv` field splitting for input
lines free of quote and carriage-return characters. -/
def splitFieldsAux : List Char → List Char → List (List Char)
  | [], cur => [cur.reverse]
  | c :: cs, cur =>
    if c = ',' then cur.reverse :: splitFieldsAux cs []
    else splitFieldsAux cs (c :: cur)

/-- The fields of one csv line. -/
def splitFields (line : String) : List String :=
  (splitFieldsAux line.data []).map String.mk

/-- Go's csv reader ignores lines whose first character is the configured
comment rune; `DecodeContacts` sets it to `#`. -/
def isCommentLine (line : String) : Bool :=
  match line.data with
  | c :: _ => c = '#'
  | [] => false

/-- Go's csv reader skips blank lines entirely (they produce no record). -/
def isBlankLine (line : String) : Bool :=
  match line.data with
  | [] => true
  | _ :: _ => false

/-- The records the csv reader lexes from the input lines: blank lines and
`#`-comment lines produce no record, every other line is split on commas. -/
def csvLex (lines : List String) : List (List String) :=
  (lines.filter (fun l => !(isBlankLine l) && !(isCommentLine l))).map splitFields

/-- The message of `csv.ErrFieldCount` (line position elided). -/
def fieldCountErrorMsg : String := "wrong number of fields"

/-- Models `csv.Reader.ReadAll` with the default `FieldsPerRecord = 0`:
the first record fixes the field count and any later record with a
different count aborts the whole read with `ErrFieldCount`.  Input is the
byte stream already split into lines; quote-free input assumed. -/
def readAll (lines : List String) : Except String (List (List String)) :=
  match csvLex lines with
  | [] => .ok []
  | r :: rs =>
    if rs.all (fun x => x.length == r.length) then .ok (r :: rs)
    else .error fieldCountErrorMsg

/-- The error outcomes of `DecodeContacts`: the reader callback failed, the
csv parse failed, or some rows were discarded (`ErrCorruptedContacts`). -/
inductive DecodeError where
  | readErr (msg : String)
  | parseErr (msg : String)
  | corrupted
  deriving DecidableEq

/-- `nexmo.ErrCorruptedContacts`. -/
def ErrCorruptedContacts : DecodeError := .corrupted

/-- The record loop of `DecodeContacts`: a record with fewer than two
fields is discarded, otherwise `NewContact(rec[0], rec[1])` is appended. -/
def decodeRecords : List (List String) → List Contact
  | [] => []
  | rec :: rest =>
    match rec with
    | num :: name :: _ => NewContact num name :: decodeRecords rest
    | _ => decodeRecords rest

/-- `nexmo.DecodeContacts`.  The reader callback `f` is modelled by its
result: either a read error or the produced lines.  Mirrors the source: a
read error returns `([], err)`; a csv parse error returns `(nil, err)`;
otherwise short records are discarded and, if any was discarded,
`ErrCorruptedContacts` is returned alongside the kept contacts. -/
def DecodeContacts (src : Except String (List String)) :
    List Contact × Option DecodeError :=
  match src with
  | .error e => ([], some (.readErr e))
  | .ok lines =>
    match readAll lines with
    | .error e => ([], some (.parseErr ("decode contacts: " ++ e)))
    | .ok recs =>
      let acc := decodeRecords recs
      if acc.length = recs.length then (acc, none)
      else (acc, some ErrCorruptedContacts)

/-- `CallLimiter = NewLimiter(3)`: the call-class rate ceiling. -/
def CallLimiterRate : Nat := 3

/-- `GetLimiter = NewLimiter(15)`: the GET-class rate ceiling. -/
def GetLimiterRate : Nat := 15

/-- The per-call deadline computed inside each broadcast goroutine:
`n := len(contacts) / 3; if n < 1 { n = 1 }; d := n * 2` seconds. -/
def callDeadlineSeconds (contactCount : Nat) : Nat :=
  let n := contactCount / 3
  let n2 := if n < 1 then 1 else n
  n2 * 2

/-- One unit of broadcast work: the goroutine closure of `Client.Call`
captures the contact, the recording name and its deadline. -/
structure CallUnit where
  contact : Contact
  recName : String
  deadlineSec : Nat
  deriving DecidableEq

/-- `nexmo.Client` (the signing key is held behind `Token`, which is
modelled by its result where needed). -/
structure Client where
  AppID : String
  Number : String
  Origin : String
  deriving DecidableEq

/-- The fan-out performed by `Client.Call`: decode the broadcast list; on
`ErrCorruptedContacts` log and proceed, on any other error return without
launching anything; otherwise launch one unit per decoded contact, each
with the shared per-call deadline. -/
def Client.CallPlan (_c : Client) (src : Except String (List String))
    (recName : String) : List CallUnit :=
  let dec := DecodeContacts src
  let contacts := dec.1
  let abort : Bool :=
    match dec.2 with
    | some e => if e = ErrCorruptedContacts then false else true
    | none => false
  if abort then []
  else contacts.map (fun v =>
    { contact := v, recName := recName
      deadlineSec := callDeadlineSeconds contacts.length })

/-- The possible fates of one outbound call unit (success, encode error,
deadline expiry, or an upstream non-2xx). -/
inductive CallOutcome where
  | success
  | encodeError
  | timeout
  | httpError (status : Nat)
  deriving DecidableEq

/-- Executes the fan-out: every planned unit is launched and paired with
its own outcome (`outcome i` is what the environment does to unit `i`).
Launching never inspects outcomes, mirroring the independent goroutines
whose errors are only logged. -/
def runPlan (plan : List CallUnit) (outcome : Nat → CallOutcome) :
    List (CallUnit × CallOutcome) :=
  plan.enum.map (fun p => (p.2, outcome p.1))

/-- The call-initiation payload built by `Client.call`: recipient list,
sender contact (kind phone, no name), answer and event webhook URLs. -/
structure CallPayload where
  toC : List Contact
  fromC : Contact
  answer_url : List String
  event_url : List String
  deriving DecidableEq

/-- `Client.call`'s payload construction. -/
def Client.callPayload (c : Client) (dest : Contact) (recName : String) :
    CallPayload :=
  { toC := [dest]
    fromC := { Name := "", type := "phone", Number := c.Number }
    answer_url := [c.Origin ++ "/play/recording/" ++ recName]
    event_url := [c.Origin ++ "/play/recording/event"] }

/-- An upstream HTTP response, as seen by `checkStatus`. -/
structure HttpResponse where
  StatusCode : Nat
  Status : String
  deriving DecidableEq

/-- `nexmo.checkStatus`: nil exactly on status 200 or 201, otherwise a
request-failed error carrying the status text. -/
def checkStatus (resp : HttpResponse) : Option String :=
  if resp.StatusCode = 200 ∨ resp.StatusCode = 201 then none
  else some ("request failed: " ++ resp.Status)

/-- `Client.Do`, with token generation and the transport modelled by their
results: a token error aborts; a transport error is returned as is; a
received response is returned together with `checkStatus`'s verdict. -/
def ClientDo (token : Except String String)
    (transport : Except String HttpResponse) :
    Except String (HttpResponse × Option String) :=
  match token with
  | .error e => .error ("unable to create authorization token: " ++ e)
  | .ok _ =>
    match transport with
    | .error e => .error e
    | .ok resp => .ok (resp, checkStatus resp)

/-- `Client.Get`: waits on `GetLimiter` (modelled by its result) then
delegates to `Do`. -/
def ClientGet (limiter : Option String) (token : Except String String)
    (transport : Except String HttpResponse) :
    Except String (HttpResponse × Option String) :=
  match limiter with
  | some e => .error ("client: unable to perform Get: " ++ e)
  | none => ClientDo token transport

/-- `Client.Post`: waits on `CallLimiter` (modelled by its result) then
delegates to `Do`. -/
def ClientPost (limiter : Option String) (token : Except String String)
    (transport : Except String HttpResponse) :
    Except String (HttpResponse × Option String) :=
  match limiter with
  | some e => .error ("client: unable to perform Post: " ++ e)
  | none => ClientDo token transport

/-- `router.go`: `const recFormat = "mp3"`. -/
def recFormat : String := "mp3"

/-- An NCCO instruction object as emitted by the handlers.  The constant
`level: 0.5` float field of the source's talk and stream actions is not
modelled (floating point); all discriminating fields are. -/
inductive Instruction where
  | talk (voiceName : String) (text : String)
  | record (beepStart : Bool) (format : String) (eventUrl : List String)
      (endOnKey : String)
  | stream (streamUrl : List String)
  deriving DecidableEq

/-- The observable outcome of the record-answer handler: HTTP 200 with an
instruction body, HTTP 401 with no body, or HTTP 500. -/
inductive AnswerOutcome where
  | ok (instructions : List Instruction)
  | unauthorized
  | serverError
  deriving DecidableEq

/-- The whitelist scan of `makeRecordAnswerHandler`: the loop keeps the
last contact whose number equals the caller. -/
def findCaller (whitelist : List Contact) (f : String) : Option Contact :=
  whitelist.foldl (fun acc v => if v.Number = f then some v else acc) none

/-- `makeRecordAnswerHandler`'s request handling: caller extraction failure
is a 401; any whitelist decode error (partial included) is a 500; an
unlisted caller is a 401; a listed caller gets the talk-then-record
instruction pair. -/
def recordAnswerHandler (callerR : Except String String)
    (whitelistSrc : Except String (List String)) (origin : String) :
    AnswerOutcome :=
  match callerR with
  | .error _ => .unauthorized
  | .ok f =>
    match DecodeContacts whitelistSrc with
    | (_, some _) => .serverError
    | (whitelist, none) =>
      match findCaller whitelist f with
      | none => .unauthorized
      | some caller =>
        .ok [ .talk "Carla" ("Parla pure" ++ caller.Name)
            , .record true recFormat [origin ++ "/store/recording/event"] "#" ]

/-- A POST answer request body, as `json.Decode` into
`struct { From string }` sees it: undecodable (invalid JSON or a type
mismatch), a JSON object carrying `from`, or a well-formed JSON object
with no `from` field (which leaves Go's zero value `""`). -/
inductive RequestBody where
  | malformed (msg : String)
  | objWithFrom (fromVal : String)
  | objWithoutFrom
  deriving DecidableEq

/-- `callerFromRequestBody`: a decode error is reported; a missing `from`
field decodes successfully to the empty string. -/
def callerFromRequestBody : RequestBody → Except String String
  | .malformed msg =>
      .error ("unable to find calling number in request body: " ++ msg)
  | .objWithFrom v => .ok v
  | .objWithoutFrom => .ok ""

/-- The decoded body of a recording-stored webhook. -/
structure RecordingEvent where
  recording_url : String
  recording_uuid : String
  deriving DecidableEq

/-- The observable outcome of `makeStoreRecordingEventHandler`. -/
inductive StoreOutcome where
  | notPost
  | badBody (msg : String)
  | downloadFailed (msg : String)
  | writeFailed (msg : String)
  | stored (recName : String) (plan : List CallUnit)
  deriving DecidableEq

/-- `makeStoreRecordingEventHandler`: on a POST with a decodable body, the
recording is downloaded (`download` models `c.Get` on the recording URL),
persisted under `recording_uuid + "." + recFormat` (`writeRec` models
`s.WriteRec`), and `Client.Call` is invoked with that same name. -/
def storeRecordingEventHandler (c : Client) (method : String)
    (body : Except String RecordingEvent)
    (download : String → Except String String)
    (writeRec : String → Except String String)
    (broadcastSrc : Except String (List String)) : StoreOutcome :=
  if method ≠ "POST" then .notPost
  else
    match body with
    | .error e => .badBody e
    | .ok content =>
      match download content.recording_url with
      | .error e => .downloadFailed e
      | .ok _ =>
        let recName := content.recording_uuid ++ "." ++ recFormat
        match writeRec recName with
        | .error e => .writeFailed e
        | .ok _ => .stored recName (c.CallPlan broadcastSrc recName)

/-- The contact a single well-formed (two-or-more-field) record decodes
to; the catch-all branch is never reached on well-formed records. -/
def recContact : List String → Contact
  | num :: name :: _ => NewContact num name
  | _ => NewContact "" ""

theorem splitFieldsAux_ne_nil (cs : List Char) : ∀ cur, splitFieldsAux cs cur ≠ [] := by
  induction cs with
  | nil => intro cur; simp [splitFieldsAux]
  | cons c cs ih =>
    intro cur
    simp only [splitFieldsAux]
    split
    · simp
    · exact ih _

theorem mem_csvLex_length_pos {lines : List String} {r : List String}
    (h : r ∈ csvLex lines) : 1 ≤ r.length := by
  rcases List.mem_map.mp h with ⟨l, _, rfl⟩
  simp only [splitFields, List.length_map]
  cases hs : splitFieldsAux l.data [] with
  | nil => exact absurd hs (splitFieldsAux_ne_nil _ _)
  | cons a t => simp

theorem decodeRecords_all_long : ∀ (recs : List (List String)),
    (∀ r ∈ recs, 2 ≤ r.length) → decodeRecords recs = recs.map recContact := by
  intro recs
  induction recs with
  | nil => intro _; rfl
  | cons rec rest ih =>
    intro h
    have h2 : 2 ≤ rec.length := h rec (by simp)
    have hrest := ih (fun r hr => h r (by simp [hr]))
    cases rec with
    | nil => simp at h2
    | cons a t =>
      cases t with
      | nil => simp at h2
      | cons b t2 => simp only [decodeRecords, List.map_cons, recContact, hrest]

theorem decodeRecords_all_short : ∀ (recs : List (List String)),
    (∀ r ∈ recs, r.length < 2) → decodeRecords recs = [] := by
  intro recs
  induction recs with
  | nil => intro _; rfl
  | cons rec rest ih =>
    intro h
    have h2 : rec.length < 2 := h rec (by simp)
    have hrest := ih (fun r hr => h r (by simp [hr]))
    cases rec with
    | nil => simpa only [decodeRecords] using hrest
    | cons a t =>
      cases t with
      | nil => simpa only [decodeRecords] using hrest
      | cons b t2 =>
        simp only [List.length_cons] at h2
        omega

theorem readAll_uniform {lines : List String} {k : Nat}
    (h : ∀ r ∈ csvLex lines, r.length = k) : readAll lines = .ok (csvLex lines) := by
  unfold readAll
  cases hc : csvLex lines with
  | nil => rfl
  | cons r rs =>
    have hall : rs.all (fun x => x.length == r.length) = true := by
      rw [List.all_eq_true]
      intro x hx
      have hxk : x.length = k := h x (by rw [hc]; exact List.mem_cons_of_mem _ hx)
      have hrk : r.length = k := h r (by rw [hc]; exact List.mem_cons_self _ _)
      simp [hxk, hrk]
    simp [hall]

theorem readAll_mixed {lines : List String} {r1 r2 : List String}
    (h1 : r1 ∈ csvLex lines) (h2 : r2 ∈ csvLex lines)
    (hne : r1.length ≠ r2.length) : readAll lines = .error fieldCountErrorMsg := by
  unfold readAll
  cases hc : csvLex lines with
  | nil => rw [hc] at h1; simp at h1
  | cons r rs =>
    rw [hc] at h1 h2
    have hfail : rs.all (fun x => x.length == r.length) = false := by
      by_cases hr1 : r1.length = r.length
      · have hr2 : r2.length ≠ r.length := fun hh => hne (hr1.trans hh.symm)
        have hr2' : r2 ∈ rs := by
          rcases List.mem_cons.mp h2 with h | h
          · subst h; exact absurd rfl hr2
          · exact h
        rw [List.all_eq_false]
        exact ⟨r2, hr2', by simp [hr2]⟩
      · have hr1' : r1 ∈ rs := by
          rcases List.mem_cons.mp h1 with h | h
          · subst h; exact absurd rfl hr1
          · exact h
        rw [List.all_eq_false]
        exact ⟨r1, hr1', by simp [hr1]⟩
    simp [hfail]

theorem CallPlan_proceed {src : Except String (List String)}
    {cs : List Contact} {e : Option DecodeError} (c : Client) (recName : String)
    (hdec : DecodeContacts src = (cs, e))
    (he : e = none ∨ e = some ErrCorruptedContacts) :
    c.CallPlan src recName = cs.map (fun v =>
      { contact := v, recName := recName
        deadlineSec := callDeadlineSeconds cs.length }) := by
  rcases he with rfl | rfl
  · simp [Client.CallPlan, hdec]
  · simp [Client.CallPlan, hdec, ErrCorruptedContacts]

theorem CallPlan_abort {src : Except String (List String)}
    {cs : List Contact} {e : DecodeError} (c : Client) (recName : String)
    (hdec : DecodeContacts src = (cs, some e)) (he : e ≠ ErrCorruptedContacts) :
    c.CallPlan src recName = [] := by
  simp [Client.CallPlan, hdec, he]

theorem CallPlan_deadline {c : Client} {src : Except String (List String)}
    {recName : String} {u : CallUnit} (hu : u ∈ c.CallPlan src recName) :
    u.deadlineSec = callDeadlineSeconds (DecodeContacts src).1.length := by
  simp only [Client.CallPlan] at hu
  split at hu
  · simp at hu
  · rcases List.mem_map.mp hu with ⟨v, _, rfl⟩
    rfl

theorem CallPlan_recName {c : Client} {src : Except String (List String)}
    {recName : String} {u : CallUnit} (hu : u ∈ c.CallPlan src recName) :
    u.recName = recName := by
  simp only [Client.CallPlan] at hu
  split at hu
  · simp at hu
  · rcases List.mem_map.mp hu with ⟨v, _, rfl⟩
    rfl

theorem callDeadlineSeconds_eq (n : Nat) :
    callDeadlineSeconds n = max 1 (n / 3) * 2 := by
  simp only [callDeadlineSeconds]
  split
  · have h0 : n / 3 = 0 := by omega
    simp [h0]
  · have hm : max 1 (n / 3) = n / 3 := by omega
    rw [hm]

theorem runPlan_map_fst (plan : List CallUnit) (outcome : Nat → CallOutcome) :
    (runPlan plan outcome).map Prod.fst = plan := by
  show (plan.enum.map (fun p => (p.2, outcome p.1))).map Prod.fst = plan
  rw [List.map_map]
  show plan.enum.map Prod.snd = plan
  simp

theorem findCaller_go_none (f : String) : ∀ (wl : List Contact),
    (∀ v ∈ wl, v.Number ≠ f) → ∀ acc,
      wl.foldl (fun acc v => if v.Number = f then some v else acc) acc = acc := by
  intro wl
  induction wl with
  | nil => intro _ acc; rfl
  | cons v rest ih =>
    intro h acc
    simp only [List.foldl_cons]
    rw [if_neg (h v (by simp))]
    exact ih (fun u hu => h u (by simp [hu])) acc

theorem findCaller_go_some (f : String) : ∀ (wl : List Contact),
    (∃ v ∈ wl, v.Number = f) → ∃ c, c.Number = f ∧ ∀ acc,
      wl.foldl (fun acc v => if v.Number = f then some v else acc) acc = some c := by
  intro wl
  induction wl with
  | nil => intro h; simp at h
  | cons v rest ih =>
    intro h
    by_cases hrest : ∃ u ∈ rest, u.Number = f
    · rcases ih hrest with ⟨c, hc, hfold⟩
      exact ⟨c, hc, fun acc => by simp only [List.foldl_cons]; exact hfold _⟩
    · have hv : v.Number = f := by
        rcases h with ⟨u, hu, hnum⟩
        rcases List.mem_cons.mp hu with rfl | hu'
        · exact hnum
        · exact absurd ⟨u, hu', hnum⟩ hrest
      refine ⟨v, hv, fun acc => ?_⟩
      simp only [List.foldl_cons]
      rw [if_pos hv]
      have hnone : ∀ u ∈ rest, u.Number ≠ f := by
        intro u hu heq
        exact hrest ⟨u, hu, heq⟩
      exact findCaller_go_none f rest hnone (some v)

theorem findCaller_mem {wl : List Contact} {f : String}
    (h : f ∈ wl.map Contact.Number) :
    ∃ c, findCaller wl f = some c ∧ c.Number = f := by
  rcases List.mem_map.mp h with ⟨v, hv, hnum⟩
  rcases findCaller_go_some f wl ⟨v, hv, hnum⟩ with ⟨c, hc, hfold⟩
  exact ⟨c, hfold none, hc⟩

theorem findCaller_not_mem {wl : List Contact} {f : String}
    (h : f ∉ wl.map Contact.Number) : findCaller wl f = none := by
  have hall : ∀ v ∈ wl, v.Number ≠ f := by
    intro v hv heq
    exact h (List.mem_map.mpr ⟨v, hv, heq⟩)
  exact findCaller_go_none f wl hall none

theorem recordAnswerHandler_found {f : String} {wsrc : Except String (List String)}
    {origin : String} {wl : List Contact}
    (hdec : DecodeContacts wsrc = (wl, none)) (hmem : f ∈ wl.map Contact.Number) :
    ∃ c, findCaller wl f = some c ∧ c.Number = f ∧
      recordAnswerHandler (.ok f) wsrc origin =
        .ok [ .talk "Carla" ("Parla pure" ++ c.Name)
            , .record true recFormat [origin ++ "/store/recording/event"] "#" ] := by
  rcases findCaller_mem hmem with ⟨c, hc, hnum⟩
  refine ⟨c, hc, hnum, ?_⟩
  simp only [recordAnswerHandler, hdec, hc]

theorem recordAnswerHandler_unlisted {f : String} {wsrc : Except String (List String)}
    {origin : String} {wl : List Contact}
    (hdec : DecodeContacts wsrc = (wl, none)) (hmem : f ∉ wl.map Contact.Number) :
    recordAnswerHandler (.ok f) wsrc origin = .unauthorized := by
  simp only [recordAnswerHandler, hdec, findCaller_not_mem hmem]

/-- C1 counterexample: a stream with one well-formed row `"1,a"` and one
malformed row `"2"` does not yield the well-formed subset together with
`ErrCorruptedContacts`; the csv reader rejects the inconsistent field
count, so the whole decode fails with a non-partial parse error and no
contacts. -/
theorem C1_counterexample :
    DecodeContacts (.ok ["1,a", "2"]) =
      ([], some (.parseErr ("decode contacts: " ++ fieldCountErrorMsg)))
    ∧ DecodeContacts (.ok ["1,a", "2"]) ≠
      ([NewContact "1" "a"], some ErrCorruptedContacts) := by
  decide

/-- C1 (amended): if every lexed row of the stream is malformed (fewer
than two fields), `DecodeContacts` returns the empty sequence together
with the distinguished partial-failure error `ErrCorruptedContacts`; a
stream containing both a well-formed row and a malformed row instead
fails wholesale with a non-partial parse error and no contacts, because
the csv reader enforces a uniform field count across rows. -/
theorem C1_partial_decode (lines : List String) :
    ((csvLex lines ≠ [] ∧ ∀ r ∈ csvLex lines, r.length < 2) →
        DecodeContacts (.ok lines) = ([], some ErrCorruptedContacts))
    ∧ ((∃ r ∈ csvLex lines, 2 ≤ r.length) → (∃ r ∈ csvLex lines, r.length < 2) →
        DecodeContacts (.ok lines) =
          ([], some (.parseErr ("decode contacts: " ++ fieldCountErrorMsg)))) := by
  constructor
  · rintro ⟨hne, hshort⟩
    have huni : ∀ r ∈ csvLex lines, r.length = 1 := by
      intro r hr
      have h1 := mem_csvLex_length_pos hr
      have h2 := hshort r hr
      omega
    have hra := readAll_uniform huni
    have hdr := decodeRecords_all_short (csvLex lines) hshort
    simp only [DecodeContacts]
    rw [hra]
    simp only [hdr, List.length_nil]
    rw [if_neg]
    intro h0
    exact hne ((List.length_eq_zero.mp h0.symm))
  · rintro ⟨r1, hr1, hlong⟩ ⟨r2, hr2, hshort⟩
    have hne : r1.length ≠ r2.length := by omega
    have hra := readAll_mixed hr1 hr2 hne
    simp only [DecodeContacts]
    rw [hra]

/-- C1 witness: an all-malformed stream gives the empty sequence and the
partial error; a mixed stream gives the wholesale parse error. -/
theorem C1_partial_decode_witness :
    DecodeContacts (.ok ["x", "y"]) = ([], some ErrCorruptedContacts)
    ∧ DecodeContacts (.ok ["1,a", "2"]) =
        ([], some (.parseErr ("decode contacts: " ++ fieldCountErrorMsg))) :=
  ⟨(C1_partial_decode ["x", "y"]).1 ⟨by decide, by decide⟩,
   (C1_partial_decode ["1,a", "2"]).2 ⟨["1", "a"], by decide, by decide⟩
     ⟨["2"], by decide, by decide⟩⟩

/-- C2: over a decoded broadcast list of N contacts (decode clean or
partial), `Client.Call` launches exactly N units, one per contact in
order with duplicates included, and the multiset of launched units is
the same under every assignment of per-unit outcomes: no unit's failure
prevents any other unit from being issued. -/
theorem C2_fanout_independent (c : Client) (src : Except String (List String))
    (recName : String) (contacts : List Contact) (err : Option DecodeError)
    (hdec : DecodeContacts src = (contacts, err))
    (hok : err = none ∨ err = some ErrCorruptedContacts)
    (outcome outcome' : Nat → CallOutcome) :
    (c.CallPlan src recName).length = contacts.length
    ∧ (c.CallPlan src recName).map CallUnit.contact = contacts
    ∧ (runPlan (c.CallPlan src recName) outcome).map Prod.fst
        = c.CallPlan src recName
    ∧ (runPlan (c.CallPlan src recName) outcome).map Prod.fst
        = (runPlan (c.CallPlan src recName) outcome').map Prod.fst := by
  have hplan := CallPlan_proceed c recName hdec hok
  refine ⟨?_, ?_, runPlan_map_fst _ _, ?_⟩
  · rw [hplan, List.length_map]
  · rw [hplan, List.map_map]
    exact List.map_id contacts
  · rw [runPlan_map_fst, runPlan_map_fst]

/-- C2 witness: a 3-contact list (with a duplicate) produces exactly one
unit per contact, under two different outcome assignments. -/
theorem C2_fanout_independent_witness :
    (Client.CallPlan ⟨"app", "n", "o"⟩ (.ok ["1,a", "1,a", "2,b"]) "r.mp3").map
        CallUnit.contact
      = [NewContact "1" "a", NewContact "1" "a", NewContact "2" "b"] :=
  (C2_fanout_independent ⟨"app", "n", "o"⟩ (.ok ["1,a", "1,a", "2,b"]) "r.mp3"
    [NewContact "1" "a", NewContact "1" "a", NewContact "2" "b"] none (by decide)
    (Or.inl rfl) (fun _ => .success) (fun _ => .timeout)).2.1

/-- C3: against a cleanly decoded whitelist, an answer request whose
extracted caller number is listed receives HTTP 200 with exactly the
two-instruction body (a talk action then a record action); an unlisted
caller receives HTTP 401 with no instruction body. -/
theorem C3_answer_auth (f : String) (wsrc : Except String (List String))
    (origin : String) (wl : List Contact)
    (hdec : DecodeContacts wsrc = (wl, none)) :
    (f ∈ wl.map Contact.Number →
      ∃ c, findCaller wl f = some c ∧ c.Number = f ∧
        recordAnswerHandler (.ok f) wsrc origin =
          .ok [ .talk "Carla" ("Parla pure" ++ c.Name)
              , .record true recFormat [origin ++ "/store/recording/event"] "#" ])
    ∧ (f ∉ wl.map Contact.Number →
        recordAnswerHandler (.ok f) wsrc origin = .unauthorized) :=
  ⟨fun hmem => recordAnswerHandler_found hdec hmem,
   fun hmem => recordAnswerHandler_unlisted hdec hmem⟩

/-- C3 witness: with whitelist row `391,bob`, caller 391 gets the
talk-then-record pair and caller 555 gets 401. -/
theorem C3_answer_auth_witness :
    recordAnswerHandler (.ok "391") (.ok ["391,bob"]) "https://o"
      = .ok [ .talk "Carla" ("Parla pure" ++ "bob")
            , .record true recFormat ["https://o" ++ "/store/recording/event"] "#" ]
    ∧ recordAnswerHandler (.ok "555") (.ok ["391,bob"]) "https://o"
      = .unauthorized := by
  constructor
  · obtain ⟨c, hc, -, hout⟩ :=
      (C3_answer_auth "391" (.ok ["391,bob"]) "https://o" [NewContact "391" "bob"]
        (by decide)).1 (by decide)
    have hN : findCaller [NewContact "391" "bob"] "391"
        = some (NewContact "391" "bob") := by decide
    rw [hN] at hc
    injection hc with h
    subst h
    exact hout
  · exact (C3_answer_auth "555" (.ok ["391,bob"]) "https://o"
      [NewContact "391" "bob"] (by decide)).2 (by decide)

/-- C4: every launched broadcast unit carries the deadline
`max(1, contactCount / callRateCapacity) * 2` seconds, with the
call-class rate ceiling `CallLimiterRate = 3`. -/
theorem C4_deadline (c : Client) (src : Except String (List String))
    (recName : String) (u : CallUnit) (hu : u ∈ c.CallPlan src recName) :
    u.deadlineSec = max 1 ((DecodeContacts src).1.length / CallLimiterRate) * 2 := by
  rw [CallPlan_deadline hu, callDeadlineSeconds_eq]
  rfl

/-- C4 witness: with 4 decoded contacts the per-unit deadline is
`max(1, 4/3) * 2 = 2` seconds. -/
theorem C4_deadline_witness :
    (CallUnit.mk (NewContact "1" "a") "r" 2).deadlineSec
      = max 1
          ((DecodeContacts (.ok ["1,a", "2,b", "3,c", "4,d"])).1.length
            / CallLimiterRate) * 2 :=
  C4_deadline ⟨"app", "n", "o"⟩ (.ok ["1,a", "2,b", "3,c", "4,d"]) "r"
    ⟨NewContact "1" "a", "r", 2⟩ (by decide)

/-- C5: a response obtained through the authenticated transport is a
success exactly when its status code is 200 or 201; any other status is
surfaced as a request-failed error carrying the status text, identically
through `Do`, `Get` and `Post`. -/
theorem C5_status_classification (tok : String) (resp : HttpResponse) :
    (checkStatus resp = none ↔ resp.StatusCode = 200 ∨ resp.StatusCode = 201)
    ∧ (¬(resp.StatusCode = 200 ∨ resp.StatusCode = 201) →
        checkStatus resp = some ("request failed: " ++ resp.Status))
    ∧ ClientDo (.ok tok) (.ok resp) = .ok (resp, checkStatus resp)
    ∧ ClientGet none (.ok tok) (.ok resp) = .ok (resp, checkStatus resp)
    ∧ ClientPost none (.ok tok) (.ok resp) = .ok (resp, checkStatus resp) := by
  refine ⟨?_, ?_, rfl, rfl, rfl⟩
  · unfold checkStatus
    split <;> simp_all
  · intro h
    unfold checkStatus
    rw [if_neg h]

/-- C5 witness: a 500 response is classified as a request-failed error
with its status text. -/
theorem C5_status_classification_witness :
    checkStatus ⟨500, "500 Internal Server Error"⟩
      = some ("request failed: " ++ "500 Internal Server Error") :=
  (C5_status_classification "tok" ⟨500, "500 Internal Server Error"⟩).2.1
    (by decide)

/-- C6: a recording-stored webhook whose body carries
`recording_uuid = U` persists the recording under the name `U ++ ".mp3"`
and triggers the broadcast with exactly that name on every launched
unit. -/
theorem C6_recording_name (c : Client) (url uuid dlBody path : String)
    (src : Except String (List String)) :
    storeRecordingEventHandler c "POST" (.ok ⟨url, uuid⟩)
        (fun _ => .ok dlBody) (fun _ => .ok path) src
      = .stored (uuid ++ ".mp3") (c.CallPlan src (uuid ++ ".mp3"))
    ∧ ∀ u ∈ c.CallPlan src (uuid ++ ".mp3"), u.recName = uuid ++ ".mp3" := by
  have hname : uuid ++ "." ++ recFormat = uuid ++ ".mp3" := by
    rw [String.append_assoc]
    rfl
  constructor
  · simp only [storeRecordingEventHandler, hname]
    simp
  · intro u hu
    exact CallPlan_recName hu

/-- C6 witness: `recording_uuid = "ABC"` stores and broadcasts under
`"ABC.mp3"`. -/
theorem C6_recording_name_witness :
    storeRecordingEventHandler ⟨"app", "n", "o"⟩ "POST" (.ok ⟨"http://u", "ABC"⟩)
        (fun _ => .ok "bytes") (fun _ => .ok "recs/ABC.mp3") (.ok ["1,a"])
      = .stored ("ABC" ++ ".mp3")
          (Client.CallPlan ⟨"app", "n", "o"⟩ (.ok ["1,a"]) ("ABC" ++ ".mp3")) :=
  (C6_recording_name ⟨"app", "n", "o"⟩ "http://u" "ABC" "bytes" "recs/ABC.mp3"
    (.ok ["1,a"])).1

/-- C7: if decoding the broadcast list fails with a read or parse error
(anything other than `ErrCorruptedContacts`), `Client.Call` launches no
unit at all; if it fails with `ErrCorruptedContacts`, the launched units
are exactly the successfully decoded subset. -/
theorem C7_decode_gate (c : Client) (src : Except String (List String))
    (recName : String) (cs : List Contact) :
    (∀ msg, DecodeContacts src = (cs, some (.readErr msg)) →
        c.CallPlan src recName = [])
    ∧ (∀ msg, DecodeContacts src = (cs, some (.parseErr msg)) →
        c.CallPlan src recName = [])
    ∧ (DecodeContacts src = (cs, some ErrCorruptedContacts) →
        (c.CallPlan src recName).map CallUnit.contact = cs) := by
  refine ⟨fun msg h => CallPlan_abort c recName h (by simp [ErrCorruptedContacts]),
          fun msg h => CallPlan_abort c recName h (by simp [ErrCorruptedContacts]),
          fun h => ?_⟩
  rw [CallPlan_proceed c recName h (Or.inr rfl), List.map_map]
  exact List.map_id cs

/-- C7 witness: a failing reader launches nothing; a partially decoded
list launches exactly its decoded subset. -/
theorem C7_decode_gate_witness :
    Client.CallPlan ⟨"app", "n", "o"⟩ (.error "boom") "r" = []
    ∧ (Client.CallPlan ⟨"app", "n", "o"⟩ (.ok ["x"]) "r").map CallUnit.contact
        = [] :=
  ⟨(C7_decode_gate ⟨"app", "n", "o"⟩ (.error "boom") "r" []).1 "boom" (by decide),
   (C7_decode_gate ⟨"app", "n", "o"⟩ (.ok ["x"]) "r" []).2.2 (by decide)⟩

/-- C8: the wire encoding of a contact emits only the kind tag and the
number (never the name); decoding a directory row `num,name` yields the
contact with that number, that name and kind `"phone"`; and the
recipient placed in the outbound call payload is that same contact. -/
theorem C8_roundtrip (num name : String) :
    (NewContact num name).wireFields = [("type", "phone"), ("number", num)]
    ∧ "name" ∉ ((NewContact num name).wireFields.map Prod.fst)
    ∧ decodeRecords [[num, name]] = [NewContact num name]
    ∧ (NewContact num name).Number = num
    ∧ (NewContact num name).Name = name
    ∧ (NewContact num name).type = "phone"
    ∧ ∀ c : Client, (c.callPayload (NewContact num name) "r").toC
        = [NewContact num name] := by
  refine ⟨rfl, ?_, rfl, rfl, rfl, rfl, fun c => rfl⟩
  show "name" ∉ (["type", "number"] : List String)
  decide

/-- C9: a stream whose rows are uniformly well-formed (every lexed row
has the same field count k ≥ 2) decodes to one contact per row, in row
order, with no error. -/
theorem C9_wellformed (lines : List String) (k : Nat) (hk : 2 ≤ k)
    (huni : ∀ r ∈ csvLex lines, r.length = k) :
    DecodeContacts (.ok lines) = ((csvLex lines).map recContact, none) := by
  have hra := readAll_uniform huni
  have hlong : ∀ r ∈ csvLex lines, 2 ≤ r.length := fun r hr => (huni r hr) ▸ hk
  have hdr := decodeRecords_all_long (csvLex lines) hlong
  simp only [DecodeContacts]
  rw [hra]
  simp [hdr]

/-- C9 witness: a comment line plus two well-formed rows decode to the
two contacts in order with no error. -/
theorem C9_wellformed_witness :
    DecodeContacts (.ok ["#comment", "1,a", "2,b"])
      = ([NewContact "1" "a", NewContact "2" "b"], none) :=
  (C9_wellformed ["#comment", "1,a", "2,b"] 2 (by decide) (by decide)).trans
    (by decide)

/-- C10: a POST answer body that is a well-formed JSON object lacking a
`from` field extracts successfully as the empty string; the request is
then refused 401 exactly when the empty string is not a whitelisted
number, and a whitelist row with an empty number field authorizes such a
caller-less request. -/
theorem C10_missing_from (wsrc : Except String (List String)) (origin : String)
    (wl : List Contact) (hdec : DecodeContacts wsrc = (wl, none)) :
    callerFromRequestBody .objWithoutFrom = .ok ""
    ∧ ("" ∉ wl.map Contact.Number →
        recordAnswerHandler (callerFromRequestBody .objWithoutFrom) wsrc origin
          = .unauthorized)
    ∧ ("" ∈ wl.map Contact.Number →
        ∃ c, findCaller wl "" = some c ∧ c.Number = "" ∧
          recordAnswerHandler (callerFromRequestBody .objWithoutFrom) wsrc origin
            = .ok [ .talk "Carla" ("Parla pure" ++ c.Name)
                  , .record true recFormat
                      [origin ++ "/store/recording/event"] "#" ]) :=
  ⟨rfl,
   fun h => recordAnswerHandler_unlisted hdec h,
   fun h => recordAnswerHandler_found hdec h⟩

/-- C10 witness: with whitelist row `,anon` (empty number field) the
caller-less request is authorized; with whitelist `391,bob` it is
refused 401. -/
theorem C10_missing_from_witness :
    recordAnswerHandler (callerFromRequestBody .objWithoutFrom) (.ok [",anon"]) "o"
      = .ok [ .talk "Carla" ("Parla pure" ++ "anon")
            , .record true recFormat ["o" ++ "/store/recording/event"] "#" ]
    ∧ recordAnswerHandler (callerFromRequestBody .objWithoutFrom)
        (.ok ["391,bob"]) "o" = .unauthorized := by
  constructor
  · obtain ⟨c, hc, -, hout⟩ :=
      (C10_missing_from (.ok [",anon"]) "o" [NewContact "" "anon"]
        (by decide)).2.2 (by decide)
    have hN : findCaller [NewContact "" "anon"] ""
        = some (NewContact "" "anon") := by decide
    rw [hN] at hc
    injection hc with h
    subst h
    exact hout
  · exact (C10_missing_from (.ok ["391,bob"]) "o" [NewContact "391" "bob"]
      (by decide)).2.1 (by decide)
